import Mathlib

/-!
Verification of the ray-casting sensor engine of `crowd_navigation_mt`
(`sensors_depricated_PLR/ray_caster/ray_caster.py` and `ray_caster_camera.py`).

The Python source is shallowly embedded below.  Tensors indexed by instance
or ray are modelled as functions out of `Nat`; vertex arrays are modelled as
lists of integers (the array content matters only through shape-and-value
equality, which list equality captures); warp mesh handles are the natural
numbers handed out by an upload counter.  Geometry over floats is modelled
over the real numbers.
-/

namespace CrowdNav

/-! ### Mesh registry (`RayCaster._initialize_warp_meshes`, `_registered_points_idx`) -/

/-- A scaled vertex array, as produced by the external geometry collaborator
(`create_trimesh_from_geom_mesh` / `create_mesh_from_geom_shape` followed by the
`resolve_world_scale` multiplication).  Array equality in the source is
`shape == shape and (a == b).all()`, which is exactly list equality here. -/
abbrev Points := List Int

/-- A warp mesh handle (`wp.Mesh`); handles are identified by the order in
which `convert_to_warp_mesh` created them. -/
abbrev Mesh := Nat

/-- Embedding of `_registered_points_idx` (ray_caster.py:443-458): the index of
the first previously loaded vertex array equal to `points`, skipping `None`
entries, `-1` when there is none.  The source's forward `for` loop is written
as structural recursion; both return the first match. -/
def registeredPointsIdx (points : Points) : List (Option Points) → Int
  | [] => -1
  | none :: rest =>
    let r := registeredPointsIdx points rest
    if r = -1 then -1 else r + 1
  | some reg :: rest =>
    if reg = points then 0
    else
      let r := registeredPointsIdx points rest
      if r = -1 then -1 else r + 1

/-- The mutable state of one expression's resolution pass over its matched
paths (ray_caster.py:194-242): `loaded_vertices`, `wp_meshes`, the upload
counter that names fresh warp meshes, and the log of `convert_to_warp_mesh`
calls (uploads) performed so far. -/
structure PassState where
  loaded : List (Option Points)
  wpMeshes : List Mesh
  nextId : Nat
  uploads : List Mesh
  deriving Repr, DecidableEq

/-- One iteration of the path loop (ray_caster.py:196-242).  The two source
branches (primitive shape vs. triangulated mesh) run the identical
registration logic on the scaled vertex array, so they are collapsed; the
external extraction-plus-scaling is the parameter `pts`.  A duplicate
(`registered_idx != -1`) appends `None` to `loaded_vertices` and reuses
`wp_meshes[registered_idx]`; otherwise the points are recorded and a fresh
warp mesh is uploaded. -/
def passStep (pts : Nat → Points) (st : PassState) (path : Nat) : PassState :=
  let points := pts path
  let ridx := registeredPointsIdx points st.loaded
  if ridx = -1 then
    { loaded := st.loaded ++ [some points]
      wpMeshes := st.wpMeshes ++ [st.nextId]
      nextId := st.nextId + 1
      uploads := st.uploads ++ [st.nextId] }
  else
    { loaded := st.loaded ++ [none]
      wpMeshes := st.wpMeshes ++ [st.wpMeshes.getD ridx.toNat 0]
      nextId := st.nextId
      uploads := st.uploads }

/-- The whole resolution pass: fold the path loop over the expanded paths. -/
def runPass (pts : Nat → Points) (paths : List Nat) (st : PassState) : PassState :=
  paths.foldl (passStep pts) st

/-- Embedding of the local-target split (ray_caster.py:251-257): `mesh_idx`
starts at `0`, each environment receives the slice
`wp_meshes[mesh_idx : mesh_idx + len//E]`, and `mesh_idx` advances by
`len//E`; after `e` iterations `mesh_idx = e * (len//E)`. -/
def splitChunks (wpMeshes : List Mesh) (numEnvs : Nat) : List (List Mesh) :=
  let n := wpMeshes.length / numEnvs
  (List.range numEnvs).map fun e => (wpMeshes.drop (e * n)).take n

/-- The process-wide registry `RayCaster.meshes`: scene-path expression
(a key, modelled as `Nat`) to the per-environment lists of mesh handles. -/
abbrev Registry := List (Nat × List (List Mesh))

/-- Dictionary lookup in `RayCaster.meshes`. -/
def lookupRegistry (reg : Registry) (expr : Nat) : Option (List (List Mesh)) :=
  (reg.find? fun p => p.1 = expr).map (·.2)

/-- The outcome of resolving one raycast target during
`_initialize_warp_meshes`: the registry afterwards, the value stored into
`self._num_meshes_per_env[expr]`, the log of uploads performed, and the
upload counter afterwards. -/
structure ResolveResult where
  registry : Registry
  numMeshesPerEnv : Nat
  uploads : List Mesh
  nextId : Nat
  deriving Repr, DecidableEq

/-- Embedding of the per-target body of `_initialize_warp_meshes`
(ray_caster.py:183-257).  A cached expression records
`len(RayCaster.meshes[expr]) // num_envs` and performs no extraction
(`continue`); otherwise the expression is expanded (`expand`), the resolution
pass runs, and the result is partitioned: a global target stores
`[wp_meshes] * num_envs` and records `1`, a local target stores the
contiguous per-environment chunks and records `len(wp_meshes) // num_envs`. -/
def resolveOrLoad (pts : Nat → Points) (expand : Nat → List Nat) (numEnvs : Nat)
    (isGlobal : Bool) (reg : Registry) (expr : Nat) (nextId : Nat) : ResolveResult :=
  match lookupRegistry reg expr with
  | some entry =>
    { registry := reg, numMeshesPerEnv := entry.length / numEnvs
      uploads := [], nextId := nextId }
  | none =>
    let st := runPass pts (expand expr) ⟨[], [], nextId, []⟩
    if isGlobal then
      { registry := reg ++ [(expr, List.replicate numEnvs st.wpMeshes)]
        numMeshesPerEnv := 1, uploads := st.uploads, nextId := st.nextId }
    else
      { registry := reg ++ [(expr, splitChunks st.wpMeshes numEnvs)]
        numMeshesPerEnv := st.wpMeshes.length / numEnvs
        uploads := st.uploads, nextId := st.nextId }

/-! ### Sensor mesh binding (ray_caster.py:300-314) -/

/-- Embedding of the `self._meshes` construction: for every environment index,
the concatenation over the sensor's configured targets (in configuration
order) of the registry's per-environment handle list for that environment.
`entries` is the list `RayCaster.meshes[target.target_prim_expr]` in the
sensor's target-configuration order; the mesh type is abstract. -/
def sensorRows {α : Type} (entries : List (List (List α))) (numEnvs : Nat) :
    List (List α) :=
  (List.range numEnvs).map fun e => (entries.map fun entry => entry.getD e []).flatten

/-- Embedding of `self._mesh_ids_wp` (ray_caster.py:314): the packed id table,
row by row the image of the bound mesh list under `.id` (`idOf`). -/
def meshIdsWp {α : Type} (idOf : α → Nat) (rows : List (List α)) : List (List Nat) :=
  rows.map fun row => row.map idOf

/-! ### Dynamic transform tracker (ray_caster.py:292-299 and 377-394) -/

/-- One tracked raycast target, as seen by the per-tick transform refresh:
its `is_global` flag, the instance count of its pose view (`view.count`), and
the flattened world poses the pose source returns for it this tick
(`compute_world_poses(view, None)`).  The pose value type `α` stands for the
(position, orientation) pair written into the two buffers, which are indexed
identically. -/
structure TargetTrack (α : Type) where
  isGlobal : Bool
  viewCount : Nat
  poses : Nat → α

/-- The buffer slot count a target contributes to
`total_n_meshes_per_env = sum(self._num_meshes_per_env.values())`
(ray_caster.py:247, 253-254, 293): `1` for a global target, the number of
discovered prims divided by the environment count for a local one (the pose
view enumerates exactly the discovered prims, so `view.count` is that
number). -/
def allocCount (numEnvs : Nat) (t : TargetTrack α) : Nat :=
  if t.isGlobal then 1 else t.viewCount / numEnvs

/-- The slot count one refresh iteration writes for a target
(ray_caster.py:386-388): `view.count`, divided by the environment count for a
local target. -/
def writeCount (numEnvs : Nat) (t : TargetTrack α) : Nat :=
  if t.isGlobal then t.viewCount else t.viewCount / numEnvs

/-- The state threaded through the refresh loop: the pose buffer
(environment, slot) with its environment dimension of size `numEnvs`, the
running slot offset `mesh_idx`, and the log of (environment, slot) pairs
written so far. -/
structure TrackerState (α : Type) where
  buf : Nat → Nat → α
  meshIdx : Nat
  writes : List (Nat × Nat)

/-- One iteration of the refresh loop (ray_caster.py:380-394):
`buf[:, mesh_idx : mesh_idx + count] = pos_w` writes all `numEnvs` rows of
the slot range.  For a global target the right-hand side has shape
`[count, ...]` and broadcasts identically into every environment row; for a
local target it is `view` results reshaped to `[numEnvs, count, ...]`
(row-major, so flat index `e * count + i`). -/
def trackerStep (numEnvs : Nat) (st : TrackerState α) (t : TargetTrack α) :
    TrackerState α :=
  let count := writeCount numEnvs t
  { buf := fun e s =>
      if e < numEnvs ∧ st.meshIdx ≤ s ∧ s < st.meshIdx + count then
        if t.isGlobal then t.poses (s - st.meshIdx)
        else t.poses (e * count + (s - st.meshIdx))
      else st.buf e s
    meshIdx := st.meshIdx + count
    writes := st.writes ++
      (List.range numEnvs).flatMap fun e =>
        (List.range count).map fun i => (e, st.meshIdx + i) }

/-- The whole per-tick refresh: `mesh_idx = 0`, then one `trackerStep` per
target in configuration order (ray_caster.py:379-394). -/
def trackerRun (numEnvs : Nat) (targets : List (TargetTrack α))
    (init : Nat → Nat → α) : TrackerState α :=
  targets.foldl (trackerStep numEnvs) ⟨init, 0, []⟩

/-- The slot offset accumulated from the targets before a given one. -/
def sumWriteCounts (numEnvs : Nat) (targets : List (TargetTrack α)) : Nat :=
  (targets.map (writeCount numEnvs)).sum

/-! ### Geometry: vectors and quaternions over the reals

`quat_apply`, `quat_apply_yaw` and `quat_inv` live in the external
`omni.isaac.lab.utils.math` library the source calls into; they are embedded
here by their library definitions:
`quat_apply(q, v) = v + 2 w (u x v) + u x (2 (u x v))` with `u = q.xyz`,
`quat_apply_yaw(q, v) = quat_apply(yaw_quat(q), v)` with
`yaw_quat(q) = (cos(yaw/2), 0, 0, sin(yaw/2))`,
`yaw = atan2(2 (w z + x y), 1 - 2 (y^2 + z^2))`,
and the quaternion inverse as the conjugate over the squared norm. -/

/-- A 3-vector of reals (a row of a `[..., 3]` float tensor). -/
structure Vec3 where
  x : ℝ
  y : ℝ
  z : ℝ

/-- A quaternion in the source's w-x-y-z convention. -/
structure Quat where
  w : ℝ
  x : ℝ
  y : ℝ
  z : ℝ

noncomputable instance : Add Vec3 := ⟨fun a b => ⟨a.x + b.x, a.y + b.y, a.z + b.z⟩⟩

noncomputable instance : SMul ℝ Vec3 := ⟨fun c a => ⟨c * a.x, c * a.y, c * a.z⟩⟩

instance : Zero Vec3 := ⟨⟨0, 0, 0⟩⟩

/-- The cross product, as `torch.cross` over the last dimension. -/
noncomputable def cross (a b : Vec3) : Vec3 :=
  ⟨a.y * b.z - a.z * b.y, a.z * b.x - a.x * b.z, a.x * b.y - a.y * b.x⟩

/-- `quat_apply` of the math library used by the source: with `u = q.xyz` and
`t = 2 (u x v)`, the rotated vector is `v + w t + u x t`. -/
noncomputable def quatApply (q : Quat) (v : Vec3) : Vec3 :=
  let u : Vec3 := ⟨q.x, q.y, q.z⟩
  let t : Vec3 := (2 : ℝ) • cross u v
  v + q.w • t + cross u t

/-- `torch.atan2 y x`, the angle of the point `(x, y)` in `(-pi, pi]`. -/
noncomputable def atan2 (y x : ℝ) : ℝ := Complex.arg ⟨x, y⟩

/-- `yaw_quat` of the math library: keep only the heading of `q`. -/
noncomputable def yawQuat (q : Quat) : Quat :=
  let yaw := atan2 (2 * (q.w * q.z + q.x * q.y)) (1 - 2 * (q.y ^ 2 + q.z ^ 2))
  ⟨Real.cos (yaw / 2), 0, 0, Real.sin (yaw / 2)⟩

/-- `quat_apply_yaw` of the math library: rotate by the yaw-only part. -/
noncomputable def quatApplyYaw (q : Quat) (v : Vec3) : Vec3 :=
  quatApply (yawQuat q) v

/-- The quaternion inverse used by `quat_inv`: conjugate over squared norm. -/
noncomputable def quatInv (q : Quat) : Quat :=
  let n := q.w ^ 2 + q.x ^ 2 + q.y ^ 2 + q.z ^ 2
  ⟨q.w / n, -q.x / n, -q.y / n, -q.z / n⟩

/-! ### Sensor update orchestration (`RayCaster.reset`, `_update_buffers_impl`,
`_get_world_velocities`, `_initialize_rays_impl`) -/

/-- The prim view the sensor is attached to (`RayCaster._initialize_impl`,
ray_caster.py:162-172): an articulation view, a rigid-body view, or the
`XFormPrimView` fallback for prims with neither capability.  Each carries the
per-instance data its backend exposes: world poses for all three, root
velocities for an articulation, body velocities for a rigid body (each a
(linear, angular) pair; the generic-transform view exposes no velocities). -/
inductive PrimView where
  | xform (count : Nat) (poses : Nat → Vec3 × Quat)
  | articulation (count : Nat) (poses : Nat → Vec3 × Quat)
      (rootVelocities : Nat → Vec3 × Vec3)
  | rigidBody (count : Nat) (poses : Nat → Vec3 × Quat)
      (velocities : Nat → Vec3 × Vec3)

/-- Modelled from the spec: `compute_world_poses` lives in the repository's
`sensors_depricated_PLR/utils` module, which is not part of the provided
sources.  Per the spec's pose-source interface it returns the world position
and w-x-y-z orientation of the queried instances, whatever the view kind. -/
def computeWorldPoses (view : PrimView) (i : Nat) : Vec3 × Quat :=
  match view with
  | .xform _ poses => poses i
  | .articulation _ poses _ => poses i
  | .rigidBody _ poses _ => poses i

/-- Embedding of `_get_world_velocities` (ray_caster.py:461-486): an
`XFormPrimView` yields `zeros_like` the positions for both the linear and the
angular velocity; the two physics views split their native velocity tensors
into the (linear, angular) pair. -/
def getWorldVelocities (view : PrimView) (i : Nat) : Vec3 × Vec3 :=
  match view with
  | .xform _ _ => (0, 0)
  | .articulation _ _ rootVelocities => rootVelocities i
  | .rigidBody _ _ velocities => velocities i

/-- The sensor's output buffers (`RayCasterData` as allocated in
`_initialize_rays_impl`, ray_caster.py:331-341), indexed by instance (and ray
for the hit buffer). -/
structure SensorData where
  posW : Nat → Vec3
  quatW : Nat → Quat
  velW : Nat → Vec3
  rotVelW : Nat → Vec3
  rayHitsW : Nat → Nat → Vec3

/-- The buffers right after `_initialize_rays_impl`: all zeros. -/
def initSensorData : SensorData :=
  ⟨fun _ => 0, fun _ => ⟨0, 0, 0, 0⟩, fun _ => 0, fun _ => 0, fun _ _ => 0⟩

/-- `buf[env_ids] = fresh`: instances listed in `env_ids` receive the batch
row holding their index (the batch is laid out in `env_ids` order), all other
instances keep their previous value. -/
def scatter {β : Type} (old : Nat → β) (envIds : List Nat) (fresh : Nat → β) :
    Nat → β :=
  fun i => if i ∈ envIds then fresh (envIds.indexOf i) else old i

/-- Embedding of `RayCaster.reset` (ray_caster.py:135-143) acting on the
drift buffer.  The source first reassigns `self.drift = torch.zeros(...)`,
erasing every instance's drift, and then calls
`self.drift[env_ids].uniform_(*self.cfg.drift_range)`.  When `env_ids` is
`None` it is replaced by `slice(None)`, basic slicing returns a view, and the
in-place `uniform_` fills the whole buffer with the sampled values (`sample`).
When `env_ids` is an index sequence, `self.drift[env_ids]` is advanced
indexing, which returns a copy; `uniform_` fills that copy and the copy is
discarded, so the drift buffer keeps the zeros.  The value type is abstract
because reset only moves values, never computes with them. -/
def resetDrift {α : Type} [Zero α] (envIds : Option (List Nat))
    (sample : Nat → α) (_drift : Nat → α) : Nat → α :=
  match envIds with
  | none => fun i => sample i
  | some _ => fun _ => 0

/-- Embedding of `RayCaster._update_buffers_impl` (ray_caster.py:343-403) for
the instance subset `env_ids` (batch position `b` holds instance
`env_ids[b]`).  Sensor poses come from the view, drift is added to the
positions, velocities come from `_get_world_velocities`, world rays are the
local rays rotated by `quat_apply_yaw` or `quat_apply` according to
`attach_yaw_only` with the (drifted) position added to the origins, and the
batched results are scattered into the data buffers at the `env_ids` rows.
The intersection kernel `raycast_dynamic_meshes` is external; it is the
parameter `kernel`, a function of the batched world-space ray origins and
directions.  (The `track_mesh_transforms` mesh-pose refresh writes the
separate tracker buffers modelled by `trackerRun`.) -/
noncomputable def updateBuffersImpl (attachYawOnly : Bool) (view : PrimView)
    (drift : Nat → Vec3) (rayStarts rayDirections : Nat → Nat → Vec3)
    (kernel : (Nat → Nat → Vec3) → (Nat → Nat → Vec3) → Nat → Nat → Vec3)
    (envIds : List Nat) (d : SensorData) : SensorData :=
  let inst := fun b => envIds.getD b 0
  let posB := fun b => (computeWorldPoses view (inst b)).1 + drift (inst b)
  let quatB := fun b => (computeWorldPoses view (inst b)).2
  let velB := fun b => (getWorldVelocities view (inst b)).1
  let omegaB := fun b => (getWorldVelocities view (inst b)).2
  let rotate := fun b v =>
    if attachYawOnly then quatApplyYaw (quatB b) v else quatApply (quatB b) v
  let rayStartsW := fun b r => rotate b (rayStarts (inst b) r) + posB b
  let rayDirectionsW := fun b r => rotate b (rayDirections (inst b) r)
  { posW := scatter d.posW envIds posB
    quatW := scatter d.quatW envIds quatB
    velW := scatter d.velW envIds velB
    rotVelW := scatter d.rotVelW envIds omegaB
    rayHitsW := scatter d.rayHitsW envIds (kernel rayStartsW rayDirectionsW) }

/-- The per-tick arguments of one `_update_buffers_impl` call: the drift
buffer in effect, the local ray pattern, the external kernel, and the updated
instance subset. -/
structure UpdateArgs where
  drift : Nat → Vec3
  rayStarts : Nat → Nat → Vec3
  rayDirections : Nat → Nat → Vec3
  kernel : (Nat → Nat → Vec3) → (Nat → Nat → Vec3) → Nat → Nat → Vec3
  envIds : List Nat

/-- A sequence of update ticks applied to the sensor data. -/
noncomputable def applyUpdates (attachYawOnly : Bool) (view : PrimView)
    (updates : List UpdateArgs) (d : SensorData) : SensorData :=
  updates.foldl
    (fun d u =>
      updateBuffersImpl attachYawOnly view u.drift u.rayStarts u.rayDirections
        u.kernel u.envIds d) d

/-! ### Camera output channels (`RayCasterCamera._update_buffers_impl`,
ray_caster_camera.py:300-313) -/

/-- The flat (per-ray) `distance_to_image_plane` tensor: rotate the per-ray
hit vector `ray_depth * ray_directions_w` into the camera frame by the
inverse camera orientation and take component `0`. -/
noncomputable def camImagePlaneFlat (q : Quat) (rayDepth : Nat → ℝ)
    (rayDirectionsW : Nat → Vec3) : Nat → ℝ :=
  fun r => (quatApply (quatInv q) (rayDepth r • rayDirectionsW r)).x

/-- `flat.view(-1, height, width)` at one instance: pixel `(i, j)` of a
row-major reshape is flat element `i * width + j`. -/
def reshapePx (flat : Nat → ℝ) (width i j : Nat) : ℝ := flat (i * width + j)

/-- The `distance_to_image_plane` output pixel written at
ray_caster_camera.py:301-311. -/
noncomputable def camOutputImagePlane (q : Quat) (rayDepth : Nat → ℝ)
    (rayDirectionsW : Nat → Vec3) (width i j : Nat) : ℝ :=
  reshapePx (camImagePlaneFlat q rayDepth rayDirectionsW) width i j

/-- The `distance_to_camera` output pixel written at
ray_caster_camera.py:312-313: the raw Euclidean ray distance, reshaped. -/
def camOutputDistanceToCamera (rayDepth : Nat → ℝ) (width i j : Nat) : ℝ :=
  reshapePx rayDepth width i j

/-- Stated from the spec's words, for comparison with the source embedding:
the value of the distance-along-optical-axis channel at pixel `(i, j)` is the
first component of the vector obtained by rotating (per-ray hit distance
times world-space ray direction) into the camera's local frame via the
inverse camera orientation, for the ray at row-major position
`i * width + j`. -/
noncomputable def specAxisDistancePx (q : Quat) (rayDepth : Nat → ℝ)
    (rayDirectionsW : Nat → Vec3) (width i j : Nat) : ℝ :=
  (quatApply (quatInv q) (rayDepth (i * width + j) • rayDirectionsW (i * width + j))).x

/-! ### Concrete inputs for evaluation -/

/-- A geometry source with pairwise distinct one-vertex arrays. -/
def evalPts : Nat → Points := fun i => [(i : Int)]

/-- An expansion yielding four discovered prim paths. -/
def evalExpand : Nat → List Nat := fun _ => [0, 1, 2, 3]

/-- A tracked-target configuration for evaluation: a global target with a
single prim, then a local target with two prims in each of two
environments.  The pose values are integers standing for (position,
orientation) pairs. -/
def evalTargets : List (TargetTrack Int) :=
  [⟨true, 1, fun _ => 100⟩, ⟨false, 4, fun i => (i : Int)⟩]

/-- A zero-initialized tracker buffer for evaluation. -/
def evalInit : Nat → Nat → Int := fun _ _ => 0

/-! ## Lemmas and claim theorems -/

/-- Componentwise description of vector addition. -/
@[simp] theorem Vec3.add_x (a b : Vec3) : (a + b).x = a.x + b.x := rfl

/-- Componentwise description of vector addition. -/
@[simp] theorem Vec3.add_y (a b : Vec3) : (a + b).y = a.y + b.y := rfl

/-- Componentwise description of vector addition. -/
@[simp] theorem Vec3.add_z (a b : Vec3) : (a + b).z = a.z + b.z := rfl

/-- Componentwise description of scalar multiplication. -/
@[simp] theorem Vec3.smul_x (c : ℝ) (a : Vec3) : (c • a).x = c * a.x := rfl

/-- Componentwise description of scalar multiplication. -/
@[simp] theorem Vec3.smul_y (c : ℝ) (a : Vec3) : (c • a).y = c * a.y := rfl

/-- Componentwise description of scalar multiplication. -/
@[simp] theorem Vec3.smul_z (c : ℝ) (a : Vec3) : (c • a).z = c * a.z := rfl

/-- Components of the zero vector. -/
@[simp] theorem Vec3.zero_x : (0 : Vec3).x = 0 := rfl

/-- Components of the zero vector. -/
@[simp] theorem Vec3.zero_y : (0 : Vec3).y = 0 := rfl

/-- Components of the zero vector. -/
@[simp] theorem Vec3.zero_z : (0 : Vec3).z = 0 := rfl

/-- Two vectors with equal components are equal. -/
theorem Vec3.eq_of_components {a b : Vec3} (hx : a.x = b.x) (hy : a.y = b.y)
    (hz : a.z = b.z) : a = b := by
  cases a
  cases b
  simp_all

/-- `getD` of a function table built over `List.range`. -/
theorem getD_map_range {β : Type} (f : Nat → β) (d : β) {e E : Nat} (he : e < E) :
    (((List.range E).map f).getD e d) = f e := by
  rw [List.getD_eq_getElem?_getD, List.getElem?_map, List.getElem?_range he]
  rfl

/-- A non-`-1` result of `_registered_points_idx` is a valid index into the
registered list, and the entry there is exactly the queried points. -/
theorem registeredPointsIdx_lt (p : Points) (l : List (Option Points))
    (h : registeredPointsIdx p l ≠ -1) :
    0 ≤ registeredPointsIdx p l ∧ (registeredPointsIdx p l).toNat < l.length := by
  induction l with
  | nil => simp [registeredPointsIdx] at h
  | cons a rest ih =>
    cases a with
    | none =>
      rw [registeredPointsIdx] at h ⊢
      by_cases hr : registeredPointsIdx p rest = -1
      · simp [hr] at h
      · obtain ⟨h0, hlt⟩ := ih hr
        simp only [hr, if_neg, List.length_cons, reduceIte]
        omega
    | some reg =>
      rw [registeredPointsIdx] at h ⊢
      by_cases heq : reg = p
      · simp [heq]
      · by_cases hr : registeredPointsIdx p rest = -1
        · simp [heq, hr] at h
        · obtain ⟨h0, hlt⟩ := ih hr
          simp only [heq, hr, if_neg, List.length_cons, reduceIte]
          omega

/-- Splitting a list of length `E * k` into the `splitChunks` slices and
concatenating them back gives the original list. -/
theorem flatten_range_chunks (k : Nat) :
    ∀ (E : Nat) (L : List Mesh), L.length = E * k →
      ((List.range E).map fun e => (L.drop (e * k)).take k).flatten = L := by
  intro E
  induction E with
  | zero =>
    intro L hL
    simp only [Nat.zero_mul] at hL
    simp [List.eq_nil_of_length_eq_zero hL]
  | succ E ih =>
    intro L hL
    rw [List.range_succ_eq_map, List.map_cons, List.map_map, List.flatten_cons]
    have hfun : ((List.range E).map ((fun e => (L.drop (e * k)).take k) ∘ Nat.succ))
        = (List.range E).map fun e => ((L.drop k).drop (e * k)).take k := by
      apply List.map_congr_left
      intro e _
      simp only [Function.comp]
      rw [List.drop_drop]
      congr 2
      rw [Nat.succ_mul, Nat.add_comm]
    have hrest : ((List.range E).map fun e => ((L.drop k).drop (e * k)).take k).flatten
        = L.drop k := by
      apply ih
      rw [List.length_drop, hL, Nat.succ_mul]
      omega
    rw [hfun, hrest]
    simp [List.take_append_drop]

/-- C4: for a local target whose expression produced a flat discovered mesh
list of length `E * k` with `E` the environment count, the stored registry
entry (the `splitChunks` partition, see `resolveOrLoad`) is a sequence of `E`
chunks, chunk `e` being exactly the elements at positions
`[e * k, (e + 1) * k)` of the flat list in original order, and concatenating
the chunks gives back the flat list, so no element is shared or dropped. -/
theorem C4_local_target_partition (L : List Mesh) (E k : Nat)
    (hE : 0 < E) (hlen : L.length = E * k) :
    (splitChunks L E).length = E ∧
    (∀ e, e < E → (splitChunks L E).getD e [] = (L.drop (e * k)).take k) ∧
    (splitChunks L E).flatten = L := by
  have hn : L.length / E = k := by
    rw [hlen, Nat.mul_div_cancel_left _ hE]
  refine ⟨?_, ?_, ?_⟩
  · simp [splitChunks]
  · intro e he
    rw [splitChunks]
    simp only [hn]
    exact getD_map_range _ _ he
  · rw [splitChunks]
    simp only [hn]
    exact flatten_range_chunks k E L hlen

/-- Witness for `C4_local_target_partition` at `E = 2`, `k = 2`,
`L = [0, 1, 2, 3]`. -/
theorem C4_local_target_partition_witness :
    0 < 2 ∧ ([0, 1, 2, 3] : List Mesh).length = 2 * 2 ∧
    ((splitChunks [0, 1, 2, 3] 2).length = 2 ∧
     (∀ e, e < 2 → (splitChunks ([0, 1, 2, 3] : List Mesh) 2).getD e [] =
        (([0, 1, 2, 3] : List Mesh).drop (e * 2)).take 2) ∧
     (splitChunks ([0, 1, 2, 3] : List Mesh) 2).flatten = [0, 1, 2, 3]) :=
  ⟨by decide, by decide, C4_local_target_partition [0, 1, 2, 3] 2 2 (by decide) (by decide)⟩

/-- C3 (code bug): a second sensor registering an expression already in the
registry records `len(RayCaster.meshes[expr]) // num_envs` as the
meshes-per-environment count, but the registry entry is the list of
`num_envs` per-environment chunks, so the recorded count is always `1`.
Concretely, for a local target with `4` discovered meshes over `2`
environments, the first registration records `2` meshes per environment and
stores an entry of `2` chunks, while the cached branch taken by the second
sensor records `2 / 2 = 1`, not `2` as the claim (and the first sensor's own
bookkeeping) requires. -/
theorem C3_cached_count_records_one :
    (resolveOrLoad evalPts evalExpand 2 false [] 0 0).numMeshesPerEnv = 2 ∧
    (resolveOrLoad evalPts evalExpand 2 false [] 0 0).registry
      = [(0, [[0, 1], [2, 3]])] ∧
    (resolveOrLoad evalPts evalExpand 2 false
        (resolveOrLoad evalPts evalExpand 2 false [] 0 0).registry 0
        (resolveOrLoad evalPts evalExpand 2 false [] 0 0).nextId).numMeshesPerEnv
      = 1 := by
  decide

/-- C2: registering an already-registered expression performs no extraction
and no upload (the registry and upload log are untouched), and within one
expression's resolution pass a path whose scaled vertex array equals a
previously loaded one (same shape, same values — `_registered_points_idx`
found a match) adds no upload, allocates no fresh handle, and appends an
already-existing mesh handle to the pass's mesh list instead. -/
theorem C2_no_double_upload
    (pts : Nat → Points) (expand : Nat → List Nat) (numEnvs : Nat) (isGlobal : Bool)
    (reg : Registry) (expr nextId : Nat) (st : PassState) (path : Nat)
    (hcached : (lookupRegistry reg expr).isSome)
    (hlen : st.wpMeshes.length = st.loaded.length)
    (hdup : registeredPointsIdx (pts path) st.loaded ≠ -1) :
    ((resolveOrLoad pts expand numEnvs isGlobal reg expr nextId).uploads = [] ∧
     (resolveOrLoad pts expand numEnvs isGlobal reg expr nextId).registry = reg) ∧
    ((passStep pts st path).uploads = st.uploads ∧
     (passStep pts st path).nextId = st.nextId ∧
     ∃ m ∈ st.wpMeshes, (passStep pts st path).wpMeshes = st.wpMeshes ++ [m]) := by
  constructor
  · obtain ⟨entry, hentry⟩ := Option.isSome_iff_exists.mp hcached
    simp [resolveOrLoad, hentry]
  · obtain ⟨h0, hlt⟩ := registeredPointsIdx_lt (pts path) st.loaded hdup
    rw [passStep]
    simp only [hdup, reduceIte]
    refine ⟨trivial, trivial,
      st.wpMeshes.getD (registeredPointsIdx (pts path) st.loaded).toNat 0, ?_, rfl⟩
    rw [List.getD_eq_getElem _ _ (by omega)]
    exact List.getElem_mem _

/-- Witness for `C2_no_double_upload`: registry `[(7, [[0]])]` already holds
expression `7`, and the pass state after loading one array `[5]` sees the
same array again at the next path. -/
theorem C2_no_double_upload_witness :
    (lookupRegistry [(7, [[0]])] 7).isSome ∧
    (PassState.mk [some [5]] [0] 1 [0]).wpMeshes.length
      = (PassState.mk [some [5]] [0] 1 [0]).loaded.length ∧
    registeredPointsIdx ((fun _ => ([5] : Points)) 1) (PassState.mk [some [5]] [0] 1 [0]).loaded ≠ -1 ∧
    (((resolveOrLoad (fun _ => ([5] : Points)) (fun _ => [0]) 1 true [(7, [[0]])] 7 1).uploads = [] ∧
      (resolveOrLoad (fun _ => ([5] : Points)) (fun _ => [0]) 1 true [(7, [[0]])] 7 1).registry
        = [(7, [[0]])]) ∧
     ((passStep (fun _ => ([5] : Points)) (PassState.mk [some [5]] [0] 1 [0]) 1).uploads
        = (PassState.mk [some [5]] [0] 1 [0]).uploads ∧
      (passStep (fun _ => ([5] : Points)) (PassState.mk [some [5]] [0] 1 [0]) 1).nextId
        = (PassState.mk [some [5]] [0] 1 [0]).nextId ∧
      ∃ m ∈ (PassState.mk [some [5]] [0] 1 [0]).wpMeshes,
        (passStep (fun _ => ([5] : Points)) (PassState.mk [some [5]] [0] 1 [0]) 1).wpMeshes
          = (PassState.mk [some [5]] [0] 1 [0]).wpMeshes ++ [m])) :=
  ⟨by decide, by decide, by decide,
    C2_no_double_upload (fun _ => ([5] : Points)) (fun _ => [0]) 1 true [(7, [[0]])] 7 1
      (PassState.mk [some [5]] [0] 1 [0]) 1 (by decide) (by decide) (by decide)⟩

/-- C5: for every environment index `e`, the sensor's bound mesh list for `e`
is the concatenation, in the sensor's configured target order, of the
registry's per-environment handle lists for `e`; row `e` of the packed
mesh-id table is the image of that concatenation under `.id`; and a mesh that
is resolved only for environment `e` (it occurs in no target's chunk for any
other environment) never appears in another environment's bound row. -/
theorem C5_binding_rows {α : Type} (idOf : α → Nat)
    (entries : List (List (List α))) (numEnvs e : Nat) (he : e < numEnvs) :
    (sensorRows entries numEnvs).getD e [] =
      (entries.map fun entry => entry.getD e []).flatten ∧
    (meshIdsWp idOf (sensorRows entries numEnvs)).getD e [] =
      ((entries.map fun entry => entry.getD e []).flatten).map idOf ∧
    (∀ m : α, (∀ entry ∈ entries, ∀ i, m ∈ entry.getD i [] → i = e) →
      ∀ e', e' < numEnvs → e' ≠ e →
        m ∉ (sensorRows entries numEnvs).getD e' []) := by
  have hrow : ∀ i, i < numEnvs → (sensorRows entries numEnvs).getD i [] =
      (entries.map fun entry => entry.getD i []).flatten := by
    intro i hi
    rw [sensorRows]
    exact getD_map_range _ _ hi
  refine ⟨hrow e he, ?_, ?_⟩
  · rw [meshIdsWp, sensorRows, List.map_map]
    rw [getD_map_range _ _ he]
    simp [Function.comp]
  · intro m hm e' he' hne hmem
    rw [hrow e' he'] at hmem
    obtain ⟨l, hl, hml⟩ := List.mem_flatten.mp hmem
    obtain ⟨entry, hentry, rfl⟩ := List.mem_map.mp hl
    exact hne (hm entry hentry e' hml)

/-- Witness for `C5_binding_rows`: two targets over two environments, one
global (same handles in both chunks) and one local. -/
theorem C5_binding_rows_witness :
    (0 : Nat) < 2 ∧
    ((sensorRows [[[9], [9]], [[1, 2], [3, 4]]] 2).getD 0 [] =
      (([[[9], [9]], [[1, 2], [3, 4]]] : List (List (List Nat))).map
        fun entry => entry.getD 0 []).flatten ∧
     (meshIdsWp id (sensorRows [[[9], [9]], [[1, 2], [3, 4]]] 2)).getD 0 [] =
      ((([[[9], [9]], [[1, 2], [3, 4]]] : List (List (List Nat))).map
        fun entry => entry.getD 0 []).flatten).map id ∧
     (∀ m : Nat, (∀ entry ∈ ([[[9], [9]], [[1, 2], [3, 4]]] : List (List (List Nat))),
          ∀ i, m ∈ entry.getD i [] → i = 0) →
        ∀ e', e' < 2 → e' ≠ 0 →
          m ∉ (sensorRows [[[9], [9]], [[1, 2], [3, 4]]] 2).getD e' [])) :=
  ⟨by decide, C5_binding_rows id [[[9], [9]], [[1, 2], [3, 4]]] 2 0 (by decide)⟩

/-- C1 (code bug): `reset(env_ids=[1])` on a two-instance sensor whose
drift is `7` everywhere and whose sampler would draw `4` (a value inside any
drift range containing it) leaves the drift at `0` for both instances: the
source first replaces the whole drift buffer with zeros — so instance `0`,
which is not in `env_ids`, does not keep its previous drift — and then calls
`uniform_` on the advanced-indexing copy `self.drift[env_ids]`, so the
sampled value `4` never reaches instance `1` either.  With `env_ids=None`
(basic slicing, a view) the resampling does land, for every instance. -/
theorem C1_reset_discards_drift :
    resetDrift (some [1]) (fun _ => (4 : Int)) (fun _ => (7 : Int)) 0 = 0 ∧
    resetDrift (some [1]) (fun _ => (4 : Int)) (fun _ => (7 : Int)) 1 = 0 ∧
    (fun _ => (7 : Int)) 0 = 7 ∧
    (fun _ => (4 : Int)) 1 = 4 ∧
    resetDrift none (fun _ => (4 : Int)) (fun _ => (7 : Int)) 0 = 4 := by
  exact ⟨rfl, rfl, rfl, rfl, rfl⟩

/-- Slots below the running `mesh_idx` are never written by the remaining
refresh iterations, and `mesh_idx` never decreases. -/
theorem trackerRun_preserves_low_slots {α : Type} (numEnvs : Nat) :
    ∀ (targets : List (TargetTrack α)) (st : TrackerState α),
      st.meshIdx ≤ (targets.foldl (trackerStep numEnvs) st).meshIdx ∧
      ∀ e s, s < st.meshIdx →
        (targets.foldl (trackerStep numEnvs) st).buf e s = st.buf e s := by
  intro targets
  induction targets with
  | nil => intro st; exact ⟨Nat.le_refl _, fun _ _ _ => rfl⟩
  | cons t ts ih =>
    intro st
    obtain ⟨hle, hbuf⟩ := ih (trackerStep numEnvs st t)
    constructor
    · exact Nat.le_trans (Nat.le_add_right _ _) hle
    · intro e s hs
      rw [List.foldl_cons, hbuf e s (Nat.lt_of_lt_of_le hs (Nat.le_add_right _ _))]
      rw [trackerStep]
      simp only
      rw [if_neg]
      intro hcond
      exact Nat.lt_irrefl _ (Nat.lt_of_lt_of_le hs hcond.2.1)

/-- `mesh_idx` after the refresh loop is the initial offset plus the sum of
the per-target write counts. -/
theorem trackerRun_meshIdx {α : Type} (numEnvs : Nat) :
    ∀ (targets : List (TargetTrack α)) (st : TrackerState α),
      (targets.foldl (trackerStep numEnvs) st).meshIdx =
        st.meshIdx + sumWriteCounts numEnvs targets := by
  intro targets
  induction targets with
  | nil => intro st; simp [sumWriteCounts]
  | cons t ts ih =>
    intro st
    rw [List.foldl_cons, ih]
    simp [trackerStep, sumWriteCounts]
    omega

/-- Every (environment, slot) pair logged by the refresh loop is either
inherited from the initial log or bounded by the environment count and the
slot range the loop covers. -/
theorem trackerRun_writes_bounded {α : Type} (numEnvs : Nat) :
    ∀ (targets : List (TargetTrack α)) (st : TrackerState α),
      ∀ p ∈ (targets.foldl (trackerStep numEnvs) st).writes,
        p ∈ st.writes ∨
          (p.1 < numEnvs ∧ st.meshIdx ≤ p.2 ∧
            p.2 < st.meshIdx + sumWriteCounts numEnvs targets) := by
  intro targets
  induction targets with
  | nil =>
    intro st p hp
    exact Or.inl hp
  | cons t ts ih =>
    intro st p hp
    rw [List.foldl_cons] at hp
    rcases ih (trackerStep numEnvs st t) p hp with hin | hbound
    · rw [trackerStep] at hin
      simp only [List.mem_append, List.mem_flatMap, List.mem_map, List.mem_range] at hin
      rcases hin with hin | ⟨e, he, i, hi, rfl⟩
      · exact Or.inl hin
      · refine Or.inr ⟨he, Nat.le_add_right _ _, ?_⟩
        have : writeCount numEnvs t ≤ sumWriteCounts numEnvs (t :: ts) := by
          simp [sumWriteCounts]
        simp only [sumWriteCounts, List.map_cons, List.sum_cons] at this ⊢
        omega
    · rw [trackerStep] at hbound
      simp only at hbound
      refine Or.inr ⟨hbound.1, ?_, ?_⟩
      · exact Nat.le_trans (Nat.le_add_right _ _) hbound.2.1
      · simp only [sumWriteCounts, List.map_cons, List.sum_cons]
        have := hbound.2.2
        simp only [sumWriteCounts] at this
        omega

/-- The final buffer content at the slot range of the `j`-th target: the
target's poses, broadcast for a global target and reshaped row-major for a
local one. -/
theorem trackerRun_content {α : Type} (numEnvs : Nat) :
    ∀ (targets : List (TargetTrack α)) (st : TrackerState α) (j : Nat)
      (hj : j < targets.length) (e i : Nat), e < numEnvs →
      i < writeCount numEnvs (targets.get ⟨j, hj⟩) →
      (targets.foldl (trackerStep numEnvs) st).buf e
          (st.meshIdx + sumWriteCounts numEnvs (targets.take j) + i) =
        (if (targets.get ⟨j, hj⟩).isGlobal then (targets.get ⟨j, hj⟩).poses i
         else (targets.get ⟨j, hj⟩).poses
            (e * writeCount numEnvs (targets.get ⟨j, hj⟩) + i)) := by
  intro targets
  induction targets with
  | nil =>
    intro st j hj
    exact absurd hj (Nat.not_lt_zero j)
  | cons t ts ih =>
    intro st j hj e i he hi
    rw [List.foldl_cons]
    match j with
    | 0 =>
      simp only [List.take_zero, sumWriteCounts, List.map_nil, List.sum_nil,
        Nat.add_zero, List.get] at hi ⊢
      have hlow := (trackerRun_preserves_low_slots numEnvs ts
        (trackerStep numEnvs st t)).2 e (st.meshIdx + i)
        (by rw [trackerStep]; simp only; omega)
      rw [hlow, trackerStep]
      simp only
      rw [if_pos ⟨he, Nat.le_add_right _ _, by omega⟩]
      simp [Nat.add_sub_cancel_left]
    | j' + 1 =>
      simp only [List.get] at hi ⊢
      have hidx : (trackerStep numEnvs st t).meshIdx
          = st.meshIdx + writeCount numEnvs t := by
        rw [trackerStep]
      have := ih (trackerStep numEnvs st t) j' (Nat.lt_of_succ_lt_succ hj) e i he hi
      rw [hidx] at this
      rw [← this]
      congr 1
      simp only [List.take_succ_cons, sumWriteCounts, List.map_cons, List.sum_cons]
      omega

/-- C8: with transform tracking enabled, the per-tick refresh writes each
target's queried poses contiguously in target order at the slot offset
accumulated from all prior targets — a global target's poses broadcast
identically into every environment row (the written value does not depend on
the row), a local target's flattened poses reshaped row-major into
`[num_envs, count]` — and, provided the pose views are consistent with the
counts recorded at initialization (a global target's view holds one prim;
for a local target the written count `view.count / num_envs` is the recorded
count by construction), every logged write lands inside the
`num_envs x total` buffers allocated at initialization, with the final
offset exactly `total`. -/
theorem C8_tracker_contiguous_layout {α : Type} (numEnvs total : Nat)
    (targets : List (TargetTrack α)) (init : Nat → Nat → α)
    (hglobal : ∀ t ∈ targets, t.isGlobal = true → t.viewCount = 1)
    (htotal : total = (targets.map (allocCount numEnvs)).sum) :
    (∀ p ∈ (trackerRun numEnvs targets init).writes,
      p.1 < numEnvs ∧ p.2 < total) ∧
    (trackerRun numEnvs targets init).meshIdx = total ∧
    (∀ j (hj : j < targets.length) (e i : Nat), e < numEnvs →
      i < writeCount numEnvs (targets.get ⟨j, hj⟩) →
      (trackerRun numEnvs targets init).buf e
          (sumWriteCounts numEnvs (targets.take j) + i) =
        (if (targets.get ⟨j, hj⟩).isGlobal then (targets.get ⟨j, hj⟩).poses i
         else (targets.get ⟨j, hj⟩).poses
            (e * writeCount numEnvs (targets.get ⟨j, hj⟩) + i))) := by
  have hsum : sumWriteCounts numEnvs targets = total := by
    rw [htotal, sumWriteCounts]
    congr 1
    apply List.map_congr_left
    intro t ht
    by_cases hg : t.isGlobal
    · rw [writeCount, allocCount, if_pos hg, if_pos hg, hglobal t ht hg]
    · rw [writeCount, allocCount, if_neg hg, if_neg hg]
  refine ⟨?_, ?_, ?_⟩
  · intro p hp
    rcases trackerRun_writes_bounded numEnvs targets ⟨init, 0, []⟩ p hp with hin | hbound
    · exact absurd hin (List.not_mem_nil p)
    · obtain ⟨hb1, hb2, hb3⟩ := hbound
      have hb3' : p.2 < 0 + sumWriteCounts numEnvs targets := hb3
      exact ⟨hb1, by omega⟩
  · rw [trackerRun, trackerRun_meshIdx, hsum]
    show 0 + total = total
    omega
  · intro j hj e i he hi
    have := trackerRun_content numEnvs targets ⟨init, 0, []⟩ j hj e i he hi
    simpa using this

/-- Witness for `C8_tracker_contiguous_layout` on `evalTargets`: one
single-prim global target and one local target with two prims per
environment, over two environments (`total = 3`). -/
theorem C8_tracker_contiguous_layout_witness :
    (∀ t ∈ evalTargets, t.isGlobal = true → t.viewCount = 1) ∧
    (3 : Nat) = (evalTargets.map (allocCount 2)).sum ∧
    ((∀ p ∈ (trackerRun 2 evalTargets evalInit).writes,
        p.1 < 2 ∧ p.2 < 3) ∧
     (trackerRun 2 evalTargets evalInit).meshIdx = 3 ∧
     (∀ j (hj : j < evalTargets.length) (e i : Nat), e < 2 →
        i < writeCount 2 (evalTargets.get ⟨j, hj⟩) →
        (trackerRun 2 evalTargets evalInit).buf e
            (sumWriteCounts 2 (evalTargets.take j) + i) =
          (if (evalTargets.get ⟨j, hj⟩).isGlobal then (evalTargets.get ⟨j, hj⟩).poses i
           else (evalTargets.get ⟨j, hj⟩).poses
              (e * writeCount 2 (evalTargets.get ⟨j, hj⟩) + i)))) :=
  ⟨by decide, by decide,
    C8_tracker_contiguous_layout 2 3 evalTargets evalInit (by decide) (by decide)⟩

/-- The batch row scattered back to an instance listed in `env_ids` is the
row that was computed for that instance. -/
theorem getD_indexOf {l : List Nat} {i : Nat} (h : i ∈ l) :
    l.getD (l.indexOf i) 0 = i := by
  rw [List.getD_eq_getElem _ _ (List.indexOf_lt_length.mpr h)]
  exact List.getElem_indexOf _

/-- C9: an update with instance subset `env_ids` overwrites exactly the
`env_ids` rows of the five output buffers.  An instance outside `env_ids`
keeps, in all five buffers, exactly the values from its last update; an
instance inside `env_ids` receives this tick's freshly computed pose (with
drift), orientation, velocities, and a ray-hit row that does not depend on
any previous buffer contents (last-write-wins per instance index). -/
theorem C9_partial_instance_update (attachYawOnly : Bool) (view : PrimView)
    (drift : Nat → Vec3) (rayStarts rayDirections : Nat → Nat → Vec3)
    (kernel : (Nat → Nat → Vec3) → (Nat → Nat → Vec3) → Nat → Nat → Vec3)
    (envIds : List Nat) (d d' : SensorData) (i : Nat) :
    (i ∉ envIds →
      ((updateBuffersImpl attachYawOnly view drift rayStarts rayDirections kernel
          envIds d).posW i = d.posW i ∧
       (updateBuffersImpl attachYawOnly view drift rayStarts rayDirections kernel
          envIds d).quatW i = d.quatW i ∧
       (updateBuffersImpl attachYawOnly view drift rayStarts rayDirections kernel
          envIds d).velW i = d.velW i ∧
       (updateBuffersImpl attachYawOnly view drift rayStarts rayDirections kernel
          envIds d).rotVelW i = d.rotVelW i ∧
       (updateBuffersImpl attachYawOnly view drift rayStarts rayDirections kernel
          envIds d).rayHitsW i = d.rayHitsW i)) ∧
    (i ∈ envIds →
      ((updateBuffersImpl attachYawOnly view drift rayStarts rayDirections kernel
          envIds d).posW i = (computeWorldPoses view i).1 + drift i ∧
       (updateBuffersImpl attachYawOnly view drift rayStarts rayDirections kernel
          envIds d).quatW i = (computeWorldPoses view i).2 ∧
       (updateBuffersImpl attachYawOnly view drift rayStarts rayDirections kernel
          envIds d).velW i = (getWorldVelocities view i).1 ∧
       (updateBuffersImpl attachYawOnly view drift rayStarts rayDirections kernel
          envIds d).rotVelW i = (getWorldVelocities view i).2 ∧
       (updateBuffersImpl attachYawOnly view drift rayStarts rayDirections kernel
          envIds d).rayHitsW i =
        (updateBuffersImpl attachYawOnly view drift rayStarts rayDirections kernel
          envIds d').rayHitsW i)) := by
  constructor
  · intro hnot
    refine ⟨?_, ?_, ?_, ?_, ?_⟩ <;>
      simp [updateBuffersImpl, scatter, hnot]
  · intro hmem
    have hinst : envIds.getD (envIds.indexOf i) 0 = i := getD_indexOf hmem
    refine ⟨?_, ?_, ?_, ?_, ?_⟩ <;>
      simp [updateBuffersImpl, scatter, hmem, hinst]

/-- Witness for `C9_partial_instance_update` with `env_ids = [1]`: instance
`0` is stale, instance `1` is overwritten. -/
theorem C9_partial_instance_update_witness :
    ((0 : Nat) ∉ [1] ∧ (1 : Nat) ∈ [1]) ∧
    (((updateBuffersImpl false (.xform 2 fun _ => (0, ⟨1, 0, 0, 0⟩))
        (fun _ => 0) (fun _ _ => 0) (fun _ _ => 0) (fun _ _ _ _ => 0)
        [1] initSensorData).posW 0 = initSensorData.posW 0) ∧
     ((updateBuffersImpl false (.xform 2 fun _ => (0, ⟨1, 0, 0, 0⟩))
        (fun _ => 0) (fun _ _ => 0) (fun _ _ => 0) (fun _ _ _ _ => 0)
        [1] initSensorData).posW 1 =
      (computeWorldPoses (.xform 2 fun _ => (0, ⟨1, 0, 0, 0⟩)) 1).1 + (fun _ => (0 : Vec3)) 1)) :=
  ⟨⟨by decide, by decide⟩,
    ((C9_partial_instance_update false (.xform 2 fun _ => (0, ⟨1, 0, 0, 0⟩))
        (fun _ => 0) (fun _ _ => 0) (fun _ _ => 0) (fun _ _ _ _ => 0)
        [1] initSensorData initSensorData 0).1 (by decide)).1,
    ((C9_partial_instance_update false (.xform 2 fun _ => (0, ⟨1, 0, 0, 0⟩))
        (fun _ => 0) (fun _ _ => 0) (fun _ _ => 0) (fun _ _ _ _ => 0)
        [1] initSensorData initSensorData 1).2 (by decide)).1⟩

/-- Any update sequence through the generic-transform view leaves the
velocity buffers at zero: one step writes `(0, 0)` into the updated rows and
keeps the zero rows elsewhere. -/
theorem xform_updates_keep_zero_velocities (count : Nat)
    (poses : Nat → Vec3 × Quat) (attachYawOnly : Bool) :
    ∀ (updates : List UpdateArgs) (d : SensorData),
      (∀ j, d.velW j = 0 ∧ d.rotVelW j = 0) →
      ∀ i,
        (updates.foldl
          (fun d u =>
            updateBuffersImpl attachYawOnly (.xform count poses) u.drift
              u.rayStarts u.rayDirections u.kernel u.envIds d) d).velW i = 0 ∧
        (updates.foldl
          (fun d u =>
            updateBuffersImpl attachYawOnly (.xform count poses) u.drift
              u.rayStarts u.rayDirections u.kernel u.envIds d) d).rotVelW i = 0 := by
  intro updates
  induction updates with
  | nil => intro d h i; exact h i
  | cons u us ih =>
    intro d h i
    rw [List.foldl_cons]
    apply ih
    intro j
    by_cases hj : j ∈ u.envIds <;>
      simp [updateBuffersImpl, scatter, getWorldVelocities, hj, (h j).1, (h j).2]

/-- C10: a sensor attached through the `XFormPrimView` fallback (its prim has
neither articulation-root nor rigid-body capability) reports exactly zero
linear and angular velocity for every instance after every sequence of
updates: `_get_world_velocities` returns zeros for a generic-transform view,
whatever the prim's actual motion. -/
theorem C10_xform_view_zero_velocities (count : Nat) (poses : Nat → Vec3 × Quat)
    (attachYawOnly : Bool) (updates : List UpdateArgs) (i : Nat) :
    (applyUpdates attachYawOnly (.xform count poses) updates initSensorData).velW i = 0 ∧
    (applyUpdates attachYawOnly (.xform count poses) updates initSensorData).rotVelW i = 0 := by
  rw [applyUpdates]
  exact xform_updates_keep_zero_velocities count poses attachYawOnly updates
    initSensorData (fun _ => ⟨rfl, rfl⟩) i

/-- Closed form of `quat_apply` for a quaternion with vanishing x and y
components: a rotation acting only in the x-y plane, fixing z. -/
theorem quatApply_wz_form (a b : ℝ) (v : Vec3) :
    quatApply ⟨a, 0, 0, b⟩ v =
      ⟨v.x - 2 * a * b * v.y - 2 * b ^ 2 * v.x,
       v.y + 2 * a * b * v.x - 2 * b ^ 2 * v.y, v.z⟩ := by
  apply Vec3.eq_of_components <;> simp [quatApply, cross] <;> ring

/-- For a unit pure-yaw quaternion (zero pitch and roll), `quat_apply_yaw`
agrees with `quat_apply`: the heading extracted through
`atan2`/half-angle reconstruction represents the same rotation, possibly as
the negated quaternion, and quaternion rotation is insensitive to the
sign. -/
theorem quatApplyYaw_eq_quatApply_of_pure_yaw (q : Quat) (hx : q.x = 0)
    (hy : q.y = 0) (hu : q.w ^ 2 + q.z ^ 2 = 1) (v : Vec3) :
    quatApplyYaw q v = quatApply q v := by
  obtain ⟨w, x, y, z⟩ := q
  simp only at hx hy hu
  subst hx
  subst hy
  set yaw := atan2 (2 * (w * z + 0 * 0)) (1 - 2 * (0 ^ 2 + z ^ 2)) with hyaw
  set ζ : ℂ := ⟨1 - 2 * (0 ^ 2 + z ^ 2), 2 * (w * z + 0 * 0)⟩ with hζ
  have hre : ζ.re = w ^ 2 - z ^ 2 := by
    simp [hζ]
    nlinarith [hu]
  have him : ζ.im = 2 * (w * z) := by
    simp [hζ]
  have habs2 : Complex.abs ζ ^ 2 = 1 := by
    rw [Complex.sq_abs, Complex.normSq_apply, hre, him]
    nlinarith [hu]
  have habs : Complex.abs ζ = 1 := by
    nlinarith [Complex.abs.nonneg ζ, habs2]
  have hne : ζ ≠ 0 := by
    intro h0
    rw [h0] at habs
    simp at habs
  have hyawarg : yaw = Complex.arg ζ := rfl
  have hcos : Real.cos yaw = w ^ 2 - z ^ 2 := by
    rw [hyawarg, Complex.cos_arg hne, habs, hre, div_one]
  have hsin : Real.sin yaw = 2 * (w * z) := by
    rw [hyawarg, Complex.sin_arg, habs, him, div_one]
  have hC2 : Real.cos (yaw / 2) ^ 2 = 1 / 2 + (w ^ 2 - z ^ 2) / 2 := by
    rw [Real.cos_sq, (by ring : 2 * (yaw / 2) = yaw), hcos]
  have hS2 : Real.sin (yaw / 2) ^ 2 = z ^ 2 := by
    rw [Real.sin_sq, hC2]
    nlinarith [hu]
  have hCS : Real.cos (yaw / 2) * Real.sin (yaw / 2) = w * z := by
    have h2 := Real.sin_two_mul (yaw / 2)
    rw [(by ring : 2 * (yaw / 2) = yaw), hsin] at h2
    nlinarith [h2]
  have hyq : yawQuat ⟨w, 0, 0, z⟩ =
      ⟨Real.cos (yaw / 2), 0, 0, Real.sin (yaw / 2)⟩ := rfl
  rw [quatApplyYaw, hyq, quatApply_wz_form, quatApply_wz_form]
  apply Vec3.eq_of_components
  · simp only
    linear_combination (-2 * v.y) * hCS + (-2 * v.x) * hS2
  · simp only
    linear_combination (2 * v.x) * hCS + (-2 * v.y) * hS2
  · rfl

/-- C6: when every sensor orientation returned by the pose view is a unit
pure-yaw quaternion (zero pitch and roll), an update in yaw-only mode
(`attach_yaw_only = true`) and one in full-orientation mode produce exactly
the same sensor data: the world-space ray origins and directions coincide,
so every output buffer coincides. -/
theorem C6_yaw_only_matches_full_orientation (view : PrimView)
    (drift : Nat → Vec3) (rayStarts rayDirections : Nat → Nat → Vec3)
    (kernel : (Nat → Nat → Vec3) → (Nat → Nat → Vec3) → Nat → Nat → Vec3)
    (envIds : List Nat) (d : SensorData)
    (hq : ∀ i, (computeWorldPoses view i).2.x = 0 ∧
        (computeWorldPoses view i).2.y = 0 ∧
        (computeWorldPoses view i).2.w ^ 2 + (computeWorldPoses view i).2.z ^ 2 = 1) :
    updateBuffersImpl true view drift rayStarts rayDirections kernel envIds d =
      updateBuffersImpl false view drift rayStarts rayDirections kernel envIds d := by
  have hrot : ∀ i v, quatApplyYaw (computeWorldPoses view i).2 v =
      quatApply (computeWorldPoses view i).2 v := fun i v =>
    quatApplyYaw_eq_quatApply_of_pure_yaw _ (hq i).1 (hq i).2.1 (hq i).2.2 v
  simp only [updateBuffersImpl, reduceIte, Bool.false_eq_true, if_false]
  simp only [hrot]

/-- Witness for `C6_yaw_only_matches_full_orientation` with the identity
orientation on every instance. -/
theorem C6_yaw_only_matches_full_orientation_witness :
    (∀ i : Nat, ((computeWorldPoses (PrimView.xform 1 fun _ => (0, ⟨1, 0, 0, 0⟩)) i).2.x = 0 ∧
        (computeWorldPoses (PrimView.xform 1 fun _ => (0, ⟨1, 0, 0, 0⟩)) i).2.y = 0 ∧
        (computeWorldPoses (PrimView.xform 1 fun _ => (0, ⟨1, 0, 0, 0⟩)) i).2.w ^ 2 +
          (computeWorldPoses (PrimView.xform 1 fun _ => (0, ⟨1, 0, 0, 0⟩)) i).2.z ^ 2 = 1)) ∧
    updateBuffersImpl true (PrimView.xform 1 fun _ => (0, ⟨1, 0, 0, 0⟩))
        (fun _ => 0) (fun _ _ => 0) (fun _ _ => 0) (fun _ _ _ _ => 0) [0]
        initSensorData =
      updateBuffersImpl false (PrimView.xform 1 fun _ => (0, ⟨1, 0, 0, 0⟩))
        (fun _ => 0) (fun _ _ => 0) (fun _ _ => 0) (fun _ _ _ _ => 0) [0]
        initSensorData :=
  ⟨fun _ => ⟨rfl, rfl, by norm_num [computeWorldPoses]⟩,
    C6_yaw_only_matches_full_orientation (PrimView.xform 1 fun _ => (0, ⟨1, 0, 0, 0⟩))
      (fun _ => 0) (fun _ _ => 0) (fun _ _ => 0) (fun _ _ _ _ => 0) [0]
      initSensorData (fun _ => ⟨rfl, rfl, by norm_num [computeWorldPoses]⟩)⟩

/-- C7: the `distance_to_image_plane` pixel written by the camera update is
the first component of the per-ray hit vector (hit distance times
world-space ray direction) rotated into the camera frame by the inverse
camera orientation, laid out row-major over `[height, width]` — and it is not
the raw Euclidean ray distance: with the identity orientation and a ray
pointing along the camera's y axis, the channel stores `0` while
`distance_to_camera` stores the raw distance `1`. -/
theorem C7_distance_to_image_plane_channel (q : Quat) (rayDepth : Nat → ℝ)
    (rayDirectionsW : Nat → Vec3) (width i j : Nat) :
    camOutputImagePlane q rayDepth rayDirectionsW width i j =
      specAxisDistancePx q rayDepth rayDirectionsW width i j ∧
    camOutputImagePlane ⟨1, 0, 0, 0⟩ (fun _ => 1) (fun _ => ⟨0, 1, 0⟩) 1 0 0 = 0 ∧
    camOutputDistanceToCamera (fun _ => 1) 1 0 0 = 1 := by
  refine ⟨rfl, ?_, rfl⟩
  simp [camOutputImagePlane, camImagePlaneFlat, reshapePx, quatApply, quatInv, cross]

end CrowdNav
